import Mathlib

/-
Verification of the kaggle_reader query engine
(src/kaggle_reader/kaggle_reader_slow.py).

The Python module is shallowly embedded below.  Python runtime values that
occur in the program are modelled by `PyVal` (the `None` sentinel, text and
integers); Python exceptions are modelled by `Except String`, with the error
string naming the Python exception ("Invalid Operator" for the explicit
`Exception("Invalid Operator")`, and "TypeError" / "ValueError" / "KeyError"
for the built-in exceptions the interpreter raises).  Records (Python dicts
built row by row from the CSV) are association lists in insertion order with
unique keys.
-/

namespace KaggleReader

/-- Python runtime values occurring in this program: the `None` sentinel,
text values (every CSV cell is text), and integers (parsed scores and the
running sum). -/
inductive PyVal where
  | none : PyVal
  | str : String → PyVal
  | int : Int → PyVal
deriving DecidableEq

/-- A row as a mapping from column name to cell value, in insertion order
(a Python `dict`), modelled as an association list with unique keys. -/
abbrev Record := List (String × PyVal)

/-- The six comparator names admitted by `operators_reader`; after the
validation in the source, `getattr(operator, op)` can only fetch one of
these six functions from the `operator` library. -/
inductive CmpOp where
  | lt | le | eq | ne | ge | gt
deriving DecidableEq

/-- Python `==` on the values above: `None == None` is true, text compares
by content, integers numerically, and values of different kinds compare
unequal (never raising). -/
def pyEq : PyVal → PyVal → Bool
  | PyVal.none, PyVal.none => true
  | PyVal.str a, PyVal.str b => a == b
  | PyVal.int a, PyVal.int b => a == b
  | _, _ => false

/-- Code-point lexicographic order on text, as Python compares strings. -/
def strLtB : List Char → List Char → Bool
  | [], [] => false
  | [], _ :: _ => true
  | _ :: _, [] => false
  | a :: as, b :: bs => if a < b then true else if b < a then false else strLtB as bs

/-- Python `a < b` (`operator.lt`): defined for text/text and int/int pairs,
and a `TypeError` when an operand is `None` or the kinds are mixed. -/
def pyLt : PyVal → PyVal → Except String Bool
  | PyVal.str a, PyVal.str b => Except.ok (strLtB a.data b.data)
  | PyVal.int a, PyVal.int b => Except.ok (decide (a < b))
  | _, _ => Except.error "TypeError"

/-- Python `a <= b` (`operator.le`): same domain as `pyLt`. -/
def pyLe : PyVal → PyVal → Except String Bool
  | PyVal.str a, PyVal.str b => Except.ok (!(strLtB b.data a.data))
  | PyVal.int a, PyVal.int b => Except.ok (decide (a ≤ b))
  | _, _ => Except.error "TypeError"

/-- Application of one of the six `operator` library functions, with the
record value on the left and the query target on the right.  `eq` and `ne`
are total; the four ordering comparators raise `TypeError` on `None` or
mixed kinds, exactly as the Python interpreter does. -/
def applyOp : CmpOp → PyVal → PyVal → Except String Bool
  | CmpOp.lt, a, b => pyLt a b
  | CmpOp.le, a, b => pyLe a b
  | CmpOp.eq, a, b => Except.ok (pyEq a b)
  | CmpOp.ne, a, b => Except.ok (!(pyEq a b))
  | CmpOp.ge, a, b => pyLe b a
  | CmpOp.gt, a, b => pyLt b a

/-- Python `el.get(k)`: the value stored under `k`, or the `None` sentinel
when the key is absent (never raising). -/
def dict_get (r : Record) (k : String) : PyVal :=
  match r.lookup k with
  | Option.some v => v
  | Option.none => PyVal.none

/-- Evaluation of one compiled comparison triple `(op, k, v)` against a
record: `op(el.get(k), v)` from the loop body of `selector`. -/
def evalTriple (el : Record) (t : CmpOp × String × PyVal) : Except String Bool :=
  applyOp t.1 (dict_get el t.2.1) t.2.2

/-- The accumulator loop of `selector`: `isOr` is the (loop-invariant)
value of `mode == 'or'`, `result` the running accumulator. -/
def selectorAux (el : Record) (isOr : Bool) : Bool → List (CmpOp × String × PyVal) → Except String Bool
  | result, [] => Except.ok result
  | result, (op, k, v) :: rest =>
    match applyOp op (dict_get el k) v with
    | Except.error e => Except.error e
    | Except.ok r => selectorAux el isOr (if isOr then r || result else r && result) rest

/-- Embedding of `selector(el, mode, operators)` from the source: the accumulator starts
at `False` when `mode == 'or'` and `True` otherwise, and each triple is
folded in with `or` respectively `and`. -/
def selector (el : Record) (mode : PyVal) (operators : List (CmpOp × String × PyVal)) : Except String Bool :=
  selectorAux el (pyEq mode (PyVal.str "or")) (!(pyEq mode (PyVal.str "or"))) operators

/-- Python `'__' in kw`: whether two consecutive underscores occur. -/
def containsDunder : List Char → Bool
  | [] => false
  | [_] => false
  | c :: d :: rest => if c = '_' ∧ d = '_' then true else containsDunder (d :: rest)

/-- Python `kw.split('__')`: greedy left-to-right split on non-overlapping
occurrences of the two-character separator. -/
def splitDunder : List Char → List (List Char)
  | [] => [[]]
  | [c] => [[c]]
  | c :: d :: rest =>
    if c = '_' ∧ d = '_' then [] :: splitDunder rest
    else
      match splitDunder (d :: rest) with
      | [] => [[c]]
      | h :: t => (c :: h) :: t

/-- The membership test `op not in ('lt', 'le', 'eq', 'ne', 'ge', 'gt')`
together with the subsequent `getattr(operator, op)`: a valid token maps to
its comparator, any other token to `Option.none`. -/
def strToOp : String → Option CmpOp
  | "lt" => Option.some CmpOp.lt
  | "le" => Option.some CmpOp.le
  | "eq" => Option.some CmpOp.eq
  | "ne" => Option.some CmpOp.ne
  | "ge" => Option.some CmpOp.ge
  | "gt" => Option.some CmpOp.gt
  | _ => Option.none

/-- The per-key body of the loop in `operators_reader`: when the key
contains the separator it must split into exactly a field and a comparator
token (`_kw, op = kw.split('__')` raises `ValueError` otherwise) and the
token must be one of the six names (`Exception("Invalid Operator")`
otherwise); a key without separator keeps the whole key as field name with
comparator `eq`. -/
def parseKey (kw : String) : Except String (String × CmpOp) :=
  if containsDunder kw.data then
    match splitDunder kw.data with
    | [f, o] =>
      match strToOp (String.mk o) with
      | Option.some c => Except.ok (String.mk f, c)
      | Option.none => Except.error "Invalid Operator"
    | _ => Except.error "ValueError"
  else
    Except.ok (kw, CmpOp.eq)

/-- Embedding of `operators_reader(**kwargs)` from the source: fold over the keyword
pairs in insertion order, compiling each key; the first failing key aborts
the whole compilation with its exception and no partial list escapes. -/
def operators_reader : List (String × PyVal) → Except String (List (CmpOp × String × PyVal))
  | [] => Except.ok []
  | (kw, v) :: rest =>
    match parseKey kw with
    | Except.error e => Except.error e
    | Except.ok (f, c) =>
      match operators_reader rest with
      | Except.error e => Except.error e
      | Except.ok tail => Except.ok ((c, f, v) :: tail)

/-- Python `kwargs.pop('mode', 'or')`: the value stored under the reserved key
`mode`, defaulting to the string `'or'`. -/
def modeOf (kwargs : List (String × PyVal)) : PyVal :=
  match kwargs.lookup "mode" with
  | Option.some v => v
  | Option.none => PyVal.str "or"

/-- The record loop of `select`: records are tested in input order and the
matching ones appended; a `selector` exception propagates. -/
def selectLoop (mode : PyVal) (ops : List (CmpOp × String × PyVal)) : List Record → Except String (List Record)
  | [] => Except.ok []
  | el :: rest =>
    match selector el mode ops with
    | Except.error e => Except.error e
    | Except.ok b =>
      match selectLoop mode ops rest with
      | Except.error e => Except.error e
      | Except.ok tail => Except.ok (if b then el :: tail else tail)

/-- Embedding of `select(it, **kwargs)` from the source: pop the `mode` key (removal is
modelled by filtering it out, its value by `modeOf`), compile the remaining
pairs with `operators_reader`, then keep the records `selector` accepts. -/
def select (it : List Record) (kwargs : List (String × PyVal)) : Except String (List Record) :=
  match operators_reader (kwargs.filter (fun p => !(p.1 == "mode"))) with
  | Except.error e => Except.error e
  | Except.ok ops => selectLoop (modeOf kwargs) ops it

/-- Python `row.split(',')`: split on every comma. -/
def splitComma : List Char → List (List Char)
  | [] => [[]]
  | c :: rest =>
    if c = ',' then [] :: splitComma rest
    else
      match splitComma rest with
      | [] => [[c]]
      | h :: t => (c :: h) :: t

/-- Embedding of `row_splitter(row)` from the source: `row[:-1].split(',')` — exactly the
trailing character is removed, then the rest is split on commas. -/
def row_splitter (row : String) : List String :=
  (splitComma row.data.dropLast).map (fun l => String.mk l)

/-- Embedding of `generate_games` restricted to its pure part: given the lines already
read from the file, `csv_gen.pop(0)` takes the header (raising `IndexError`
on an empty file, modelled by `Option.none`), and each remaining line
becomes `dict(zip(columns, row_splitter(row)))`. -/
def generate_games (lines : List String) : Option (List Record) :=
  match lines with
  | [] => Option.none
  | header :: rest =>
    let columns := row_splitter header
    Option.some (rest.map (fun row =>
      (columns.zip (row_splitter row)).map (fun p => (p.1, PyVal.str p.2))))

/-- Python `game[k]`: dictionary subscription, `KeyError` when absent. -/
def dict_item (r : Record) (k : String) : Except String PyVal :=
  match r.lookup k with
  | Option.some v => Except.ok v
  | Option.none => Except.error "KeyError"

/-- Whitespace characters stripped by Python `int` conversion. -/
def isWsChar (c : Char) : Bool :=
  c = ' ' || c = '\t' || c = '\n' || c = '\r'

/-- Decimal digit accumulation for `int(s)`; any non-digit character makes
the conversion fail. -/
def digitsCore : Nat → List Char → Option Nat
  | acc, [] => Option.some acc
  | acc, c :: rest =>
    if c.isDigit then digitsCore (acc * 10 + (c.toNat - '0'.toNat)) rest
    else Option.none

/-- A non-empty all-digit run parsed as a natural number. -/
def digitsToNat : List Char → Option Nat
  | [] => Option.none
  | c :: rest =>
    if c.isDigit then digitsCore (c.toNat - '0'.toNat) rest
    else Option.none

/-- Python `int(s)` on text: surrounding whitespace is stripped, an optional
single sign may lead, and the remainder must be a non-empty digit run
(digit-group underscores of Python 3.6+ are not modelled; no claim depends
on them).  `Option.none` models `ValueError`. -/
def parsePyInt (s : String) : Option Int :=
  let cs := ((s.data.dropWhile isWsChar).reverse.dropWhile isWsChar).reverse
  match cs with
  | '-' :: rest => (digitsToNat rest).map (fun n => -(Int.ofNat n))
  | '+' :: rest => (digitsToNat rest).map (fun n => Int.ofNat n)
  | _ => (digitsToNat cs).map (fun n => Int.ofNat n)

/-- Python `int(v)` for the values in play: an integer is returned as is,
text is parsed (`ValueError` on failure) and `None` raises `TypeError`. -/
def pyInt : PyVal → Except String Int
  | PyVal.int n => Except.ok n
  | PyVal.str s =>
    match parsePyInt s with
    | Option.some n => Except.ok n
    | Option.none => Except.error "ValueError"
  | PyVal.none => Except.error "TypeError"

/-- Embedding of `team_goals(game, team_name)` from the source: if `game['home_team']`
equals the team name the home score is parsed, otherwise the away score is
parsed — with no look at `away_team` at all. -/
def team_goals (game : Record) (team_name : String) : Except String Int :=
  match dict_item game "home_team" with
  | Except.error e => Except.error e
  | Except.ok ht =>
    if pyEq ht (PyVal.str team_name) then
      match dict_item game "home_score" with
      | Except.error e => Except.error e
      | Except.ok v => pyInt v
    else
      match dict_item game "away_score" with
      | Except.error e => Except.error e
      | Except.ok v => pyInt v

/-- The left fold of `sum_goals` (`reduce` with initial value `0`); an
exception from `team_goals` aborts the whole reduction. -/
def sumGoalsAux (team_name : String) : Int → List Record → Except String Int
  | res, [] => Except.ok res
  | res, game :: rest =>
    match team_goals game team_name with
    | Except.error e => Except.error e
    | Except.ok g => sumGoalsAux team_name (res + g) rest

/-- Embedding of `sum_goals(games, team_name)` from the source. -/
def sum_goals (games : List Record) (team_name : String) : Except String Int :=
  sumGoalsAux team_name 0 games

/-- Evaluation of a whole triple list against one record, failing at the
first raising triple; used to state how `selector` combines the
per-triple truth values. -/
def evalTriples (el : Record) : List (CmpOp × String × PyVal) → Except String (List Bool)
  | [] => Except.ok []
  | t :: rest =>
    match evalTriple el t with
    | Except.error e => Except.error e
    | Except.ok b =>
      match evalTriples el rest with
      | Except.error e => Except.error e
      | Except.ok bs => Except.ok (b :: bs)

/-- The Boolean a record contributes to the output of `select`: the value
`selector` returns when it returns normally (`false` is never consulted in
the theorems below, which assume no triple raises). -/
def selectorHolds (mode : PyVal) (ops : List (CmpOp × String × PyVal)) (el : Record) : Bool :=
  match selector el mode ops with
  | Except.ok b => b
  | Except.error _ => false

theorem splitDunder_not_contains : ∀ (s : List Char), containsDunder s = false → splitDunder s = [s]
  | [] => fun _ => rfl
  | [_] => fun _ => rfl
  | c :: d :: rest => fun h => by
    simp only [containsDunder] at h
    simp only [splitDunder]
    by_cases hc : c = '_' ∧ d = '_'
    · rw [if_pos hc] at h
      exact absurd h (by simp)
    · rw [if_neg hc] at h
      rw [if_neg hc, splitDunder_not_contains (d :: rest) h]

theorem containsDunder_of_pair (s f o : List Char) (h : splitDunder s = [f, o]) :
    containsDunder s = true := by
  cases hc : containsDunder s with
  | true => rfl
  | false =>
    rw [splitDunder_not_contains s hc] at h
    simp at h

theorem parseKey_nosep (kw : String) (h : containsDunder kw.data = false) :
    parseKey kw = Except.ok (kw, CmpOp.eq) := by
  simp [parseKey, h]

theorem parseKey_invalid (kw : String) (f o : List Char)
    (hs : splitDunder kw.data = [f, o]) (hb : strToOp (String.mk o) = Option.none) :
    parseKey kw = Except.error "Invalid Operator" := by
  have hc : containsDunder kw.data = true := containsDunder_of_pair _ f o hs
  simp [parseKey, hc, hs, hb]

theorem parseKey_error_invalid (kw : String)
    (hw : containsDunder kw.data = true → (splitDunder kw.data).length = 2)
    (e : String) (he : parseKey kw = Except.error e) : e = "Invalid Operator" := by
  cases hc : containsDunder kw.data with
  | false =>
    rw [parseKey_nosep kw hc] at he
    exact absurd he (by simp)
  | true =>
    have hlen := hw hc
    rcases hsp : splitDunder kw.data with _ | ⟨a, _ | ⟨b, _ | ⟨x, t⟩⟩⟩
    · rw [hsp] at hlen; simp at hlen
    · rw [hsp] at hlen; simp at hlen
    · simp only [parseKey, hc, if_true, hsp] at he
      cases hso : strToOp (String.mk b) with
      | some c => simp only [hso] at he; exact absurd he (by simp)
      | none =>
        simp only [hso] at he
        injection he with h1
        exact h1.symm
    · rw [hsp] at hlen; simp at hlen

/-- Claim C6: a Query Specification key containing no separator compiles to
a Comparison Triple whose comparator is `eq` and whose field name is the
whole key, at the corresponding position of the compiled list. -/
theorem compiled_default_comparator_is_eq :
    ∀ (kwargs : List (String × PyVal)) (l : List (CmpOp × String × PyVal)),
      operators_reader kwargs = Except.ok l →
      ∀ (i : Nat) (kw : String) (v : PyVal),
        kwargs[i]? = Option.some (kw, v) →
        containsDunder kw.data = false →
        l[i]? = Option.some (CmpOp.eq, kw, v) := by
  intro kwargs
  induction kwargs with
  | nil =>
    intro l h i kw v hk
    simp at hk
  | cons p rest ih =>
    intro l h i kw v hk hns
    obtain ⟨kw0, v0⟩ := p
    cases hpk : parseKey kw0 with
    | error e =>
      simp only [operators_reader, hpk] at h
      exact absurd h (by simp)
    | ok fc =>
      obtain ⟨f0, c0⟩ := fc
      cases hrest : operators_reader rest with
      | error e2 =>
        simp only [operators_reader, hpk, hrest] at h
        exact absurd h (by simp)
      | ok tail =>
        simp only [operators_reader, hpk, hrest, Except.ok.injEq] at h
        subst h
        cases i with
        | zero =>
          simp only [List.getElem?_cons_zero, Option.some.injEq] at hk
          injection hk with h1 h2
          subst h1
          subst h2
          rw [parseKey_nosep kw0 hns] at hpk
          injection hpk with h3
          injection h3 with h4 h5
          subst h4
          subst h5
          simp
        | succ j =>
          simp only [List.getElem?_cons_succ] at hk ⊢
          exact ih tail hrest j kw v hk hns

/-- Concrete instance of the claim C6 theorem: the single no-separator
key `home_team` compiles to the triple `(eq, home_team, "Italy")`. -/
theorem compiled_default_comparator_is_eq_witness :
    ([(CmpOp.eq, "home_team", PyVal.str "Italy")] : List (CmpOp × String × PyVal))[0]?
      = Option.some (CmpOp.eq, "home_team", PyVal.str "Italy") :=
  compiled_default_comparator_is_eq [("home_team", PyVal.str "Italy")]
    [(CmpOp.eq, "home_team", PyVal.str "Italy")] rfl 0 "home_team" (PyVal.str "Italy") rfl rfl

theorem operators_reader_invalid :
    ∀ (kwargs : List (String × PyVal)) (kw : String) (v : PyVal) (f o : List Char),
      (kw, v) ∈ kwargs →
      splitDunder kw.data = [f, o] →
      strToOp (String.mk o) = Option.none →
      (∀ p ∈ kwargs, containsDunder (Prod.fst p).data = true →
        (splitDunder (Prod.fst p).data).length = 2) →
      operators_reader kwargs = Except.error "Invalid Operator" := by
  intro kwargs
  induction kwargs with
  | nil =>
    intro kw v f o hmem
    simp at hmem
  | cons p rest ih =>
    intro kw v f o hmem hsplit hbad hwf
    obtain ⟨kw0, v0⟩ := p
    rcases List.mem_cons.mp hmem with heq | hmem2
    · injection heq with h1 h2
      subst h1
      have hpk := parseKey_invalid kw f o hsplit hbad
      simp [operators_reader, hpk]
    · cases hpk : parseKey kw0 with
      | error e =>
        have he := parseKey_error_invalid kw0 (hwf (kw0, v0) (List.mem_cons_self _ _)) e hpk
        subst he
        simp [operators_reader, hpk]
      | ok fc =>
        obtain ⟨f0, c0⟩ := fc
        have hr := ih kw v f o hmem2 hsplit hbad
          (fun q hq => hwf q (List.mem_cons_of_mem _ hq))
        simp [operators_reader, hpk, hr]

/-- Claim C3: a Query Specification key with exactly one separator whose
comparator token is not one of the six names makes predicate compilation
fail with the `Invalid Operator` exception and no partial triple list, and
`select` then fails identically on every record sequence, so no record is
evaluated against the query.  (The hypothesis on the other keys only rules
out the distinct `ValueError` a multi-separator key raises first.) -/
theorem invalid_operator_aborts (kwargs : List (String × PyVal)) (kw : String) (v : PyVal)
    (f o : List Char)
    (hmem : (kw, v) ∈ kwargs)
    (hsplit : splitDunder kw.data = [f, o])
    (hbad : strToOp (String.mk o) = Option.none)
    (hwf : ∀ p ∈ kwargs, containsDunder (Prod.fst p).data = true →
      (splitDunder (Prod.fst p).data).length = 2) :
    operators_reader kwargs = Except.error "Invalid Operator"
    ∧ ∀ it : List Record, select it kwargs = Except.error "Invalid Operator" := by
  have h1 := operators_reader_invalid kwargs kw v f o hmem hsplit hbad hwf
  refine ⟨h1, fun it => ?_⟩
  have hkwne : kw ≠ "mode" := by
    intro hkm
    have hcne := containsDunder_of_pair kw.data f o hsplit
    rw [hkm] at hcne
    exact absurd hcne (by decide)
  have hmemf : (kw, v) ∈ kwargs.filter (fun p => !(p.1 == "mode")) := by
    refine List.mem_filter.mpr ⟨hmem, ?_⟩
    simp [hkwne]
  have h2 := operators_reader_invalid (kwargs.filter (fun p => !(p.1 == "mode"))) kw v f o
    hmemf hsplit hbad (fun q hq => hwf q (List.mem_of_mem_filter hq))
  simp [select, h2]

/-- Concrete instance of the claim C3 theorem: the key `score__between`
aborts compilation and record selection with `Invalid Operator`. -/
theorem invalid_operator_aborts_witness :
    operators_reader [("score__between", PyVal.str "1")] = Except.error "Invalid Operator"
    ∧ select [[]] [("score__between", PyVal.str "1")] = Except.error "Invalid Operator" :=
  have h := invalid_operator_aborts [("score__between", PyVal.str "1")] "score__between"
    (PyVal.str "1") "score".data "between".data (by simp) rfl rfl (by decide)
  ⟨h.1, h.2 [[]]⟩

theorem selectorAux_and (el : Record) :
    ∀ (ops : List (CmpOp × String × PyVal)) (bs : List Bool) (acc : Bool),
      evalTriples el ops = Except.ok bs →
      selectorAux el false acc ops = Except.ok (acc && bs.all (fun b => b)) := by
  intro ops
  induction ops with
  | nil =>
    intro bs acc h
    simp only [evalTriples, Except.ok.injEq] at h
    subst h
    simp [selectorAux]
  | cons t rest ih =>
    intro bs acc h
    obtain ⟨op, k, v⟩ := t
    cases he : evalTriple el (op, k, v) with
    | error e =>
      simp only [evalTriples, he] at h
      exact absurd h (by simp)
    | ok b =>
      cases hr : evalTriples el rest with
      | error e =>
        simp only [evalTriples, he, hr] at h
        exact absurd h (by simp)
      | ok bs2 =>
        simp only [evalTriples, he, hr, Except.ok.injEq] at h
        subst h
        have hstep : selectorAux el false acc ((op, k, v) :: rest)
            = selectorAux el false (b && acc) rest := by
          simp [selectorAux, show applyOp op (dict_get el k) v = Except.ok b from he]
        rw [hstep, ih bs2 (b && acc) hr]
        refine congrArg Except.ok ?_
        cases acc <;> cases b <;> simp

theorem selectorAux_or (el : Record) :
    ∀ (ops : List (CmpOp × String × PyVal)) (bs : List Bool) (acc : Bool),
      evalTriples el ops = Except.ok bs →
      selectorAux el true acc ops = Except.ok (acc || bs.any (fun b => b)) := by
  intro ops
  induction ops with
  | nil =>
    intro bs acc h
    simp only [evalTriples, Except.ok.injEq] at h
    subst h
    simp [selectorAux]
  | cons t rest ih =>
    intro bs acc h
    obtain ⟨op, k, v⟩ := t
    cases he : evalTriple el (op, k, v) with
    | error e =>
      simp only [evalTriples, he] at h
      exact absurd h (by simp)
    | ok b =>
      cases hr : evalTriples el rest with
      | error e =>
        simp only [evalTriples, he, hr] at h
        exact absurd h (by simp)
      | ok bs2 =>
        simp only [evalTriples, he, hr, Except.ok.injEq] at h
        subst h
        have hstep : selectorAux el true acc ((op, k, v) :: rest)
            = selectorAux el true (b || acc) rest := by
          simp [selectorAux, show applyOp op (dict_get el k) v = Except.ok b from he]
        rw [hstep, ih bs2 (b || acc) hr]
        refine congrArg Except.ok ?_
        cases acc <;> cases b <;> simp

/-- Claim C2: whenever every triple evaluates without raising, `selector`
combines the triple results with logical AND for every mode string other
than the exact string `or` — including the spellings `any`, `all` and
`and` — and with logical OR exactly for the string `or`; and when no mode
key is supplied, `select` behaves as if the mode were the default `or`. -/
theorem selector_and_unless_or (el : Record) (m : String)
    (ops : List (CmpOp × String × PyVal)) (bs : List Bool)
    (h : evalTriples el ops = Except.ok bs) :
    (m ≠ "or" → selector el (PyVal.str m) ops = Except.ok (bs.all (fun b => b)))
    ∧ selector el (PyVal.str "or") ops = Except.ok (bs.any (fun b => b))
    ∧ ∀ (it : List Record) (kwargs : List (String × PyVal)),
        kwargs.lookup "mode" = Option.none →
        select it kwargs = select it (("mode", PyVal.str "or") :: kwargs) := by
  refine ⟨fun hm => ?_, ?_, fun it kwargs hnm => ?_⟩
  · have hbeq : (m == "or") = false := by
      cases hb : (m == "or") with
      | false => rfl
      | true => exact absurd (eq_of_beq hb) hm
    have hpy : pyEq (PyVal.str m) (PyVal.str "or") = false := by
      simp only [pyEq, hbeq]
    simp only [selector, hpy, Bool.not_false]
    rw [selectorAux_and el ops bs true h]
    simp
  · have hpy : pyEq (PyVal.str "or") (PyVal.str "or") = true := rfl
    simp only [selector, hpy, Bool.not_true]
    rw [selectorAux_or el ops bs false h]
    simp
  · have hmode : modeOf kwargs = PyVal.str "or" := by
      simp [modeOf, hnm]
    have hmode2 : modeOf (("mode", PyVal.str "or") :: kwargs) = PyVal.str "or" := by
      simp [modeOf, List.lookup]
    have hfil : (("mode", PyVal.str "or") :: kwargs).filter (fun p => !(p.1 == "mode"))
        = kwargs.filter (fun p => !(p.1 == "mode")) := by
      simp [List.filter]
    simp only [select, hmode, hmode2, hfil]

/-- Concrete instance of the claim C2 theorem: the mode string `all` (not
equal to `or`) combines with AND, here over a single true triple. -/
theorem selector_and_unless_or_witness :
    selector [("x", PyVal.str "1")] (PyVal.str "all") [(CmpOp.eq, "x", PyVal.str "1")]
      = Except.ok true :=
  (selector_and_unless_or [("x", PyVal.str "1")] "all"
    [(CmpOp.eq, "x", PyVal.str "1")] [true] rfl).1 (by decide)

theorem selectLoop_const_true (mode : PyVal) (ops : List (CmpOp × String × PyVal))
    (hall : ∀ el : Record, selector el mode ops = Except.ok true) :
    ∀ it : List Record, selectLoop mode ops it = Except.ok it := by
  intro it
  induction it with
  | nil => rfl
  | cons el rest ih => simp [selectLoop, hall el, ih]

theorem selectLoop_const_false (mode : PyVal) (ops : List (CmpOp × String × PyVal))
    (hall : ∀ el : Record, selector el mode ops = Except.ok false) :
    ∀ it : List Record, selectLoop mode ops it = Except.ok [] := by
  intro it
  induction it with
  | nil => rfl
  | cons el rest ih => simp [selectLoop, hall el, ih]

/-- Claim C1: with an empty list of Comparison Triples, OR-combination —
the spec's Combination Mode `any`, spelled `or` by the code — selects no
record, while AND-combination — the spec's mode `all`, which the code
enters for every mode value other than `or`, in particular the literal
string `all` — returns the full input sequence unchanged and in order. -/
theorem select_zero_triples (it : List Record) (el : Record) (m : String) :
    selector el (PyVal.str "or") [] = Except.ok false
    ∧ select it [("mode", PyVal.str "or")] = Except.ok []
    ∧ (m ≠ "or" →
        selector el (PyVal.str m) [] = Except.ok true
        ∧ select it [("mode", PyVal.str m)] = Except.ok it) := by
  refine ⟨rfl, ?_, fun hm => ?_⟩
  · exact (show select it [("mode", PyVal.str "or")] = selectLoop (PyVal.str "or") [] it
      from rfl).trans (selectLoop_const_false (PyVal.str "or") [] (fun el2 => rfl) it)
  · have hbeq : (m == "or") = false := by
      cases hb : (m == "or") with
      | false => rfl
      | true => exact absurd (eq_of_beq hb) hm
    have hsel : ∀ el2 : Record, selector el2 (PyVal.str m) [] = Except.ok true := by
      intro el2
      simp [selector, selectorAux, pyEq, hbeq]
    refine ⟨hsel el, ?_⟩
    exact (show select it [("mode", PyVal.str m)] = selectLoop (PyVal.str m) [] it
      from rfl).trans (selectLoop_const_true _ _ hsel it)

/-- Concrete instance of the claim C1 theorem: one record, no triples —
mode `or` selects nothing, mode `all` keeps the whole sequence. -/
theorem select_zero_triples_witness :
    select [([] : Record)] [("mode", PyVal.str "or")] = Except.ok []
    ∧ select [([] : Record)] [("mode", PyVal.str "all")] = Except.ok [[]] :=
  ⟨(select_zero_triples [[]] [] "all").2.1,
   ((select_zero_triples [[]] [] "all").2.2 (by decide)).2⟩

theorem selectLoop_filter (mode : PyVal) (ops : List (CmpOp × String × PyVal)) :
    ∀ it : List Record,
      (∀ el ∈ it, ∃ b, selector el mode ops = Except.ok b) →
      selectLoop mode ops it = Except.ok (it.filter (selectorHolds mode ops)) := by
  intro it
  induction it with
  | nil => intro h; rfl
  | cons el rest ih =>
    intro h
    obtain ⟨b, hb⟩ := h el (List.mem_cons_self el rest)
    have hrest := ih (fun e he => h e (List.mem_cons_of_mem el he))
    have hhold : selectorHolds mode ops el = b := by
      simp [selectorHolds, hb]
    simp only [selectLoop, hb, hrest, List.filter_cons, hhold]

/-- Claim C7: when compilation succeeds and no triple raises on any input
record, the output of `select` is exactly the sub-sequence of input records
on which the combined predicate evaluates true, in input order. -/
theorem select_is_ordered_filter (it : List Record) (kwargs : List (String × PyVal))
    (ops : List (CmpOp × String × PyVal))
    (hops : operators_reader (kwargs.filter (fun p => !(p.1 == "mode"))) = Except.ok ops)
    (hok : ∀ el ∈ it, ∃ b, selector el (modeOf kwargs) ops = Except.ok b) :
    select it kwargs = Except.ok (it.filter (selectorHolds (modeOf kwargs) ops)) := by
  simp only [select, hops]
  exact selectLoop_filter (modeOf kwargs) ops it hok

/-- Concrete instance of the claim C7 theorem: one matching record is kept. -/
theorem select_is_ordered_filter_witness :
    select [[("home_team", PyVal.str "Italy")]] [("home_team__eq", PyVal.str "Italy")]
      = Except.ok [[("home_team", PyVal.str "Italy")]] :=
  select_is_ordered_filter [[("home_team", PyVal.str "Italy")]]
    [("home_team__eq", PyVal.str "Italy")] [(CmpOp.eq, "home_team", PyVal.str "Italy")]
    rfl (by
      intro el hel
      rw [List.mem_singleton] at hel
      subst hel
      exact ⟨true, rfl⟩)

/-- Claim C4 counterexample: evaluating a Comparison Triple whose field is
absent from the record does raise for an ordering comparator — `operator.lt`
applied to the `None` sentinel and a text target is a `TypeError` — so the
evaluation is not raise-free for all six comparators. -/
theorem missing_field_lt_raises :
    selector [] (PyVal.str "or") [(CmpOp.lt, "x", PyVal.str "3")]
      = Except.error "TypeError" := rfl

/-- Claim C4 amended: for a field absent from the record the lookup itself
never raises and yields the `None` sentinel as the comparator's left
operand (the target stays on the right); with comparators `eq` and `ne`
the evaluation then returns normally, comparing against "no value", while
the four ordering comparators raise `TypeError` on the sentinel. -/
theorem missing_field_sentinel (r : Record) (k : String) (v : PyVal)
    (h : r.lookup k = Option.none) :
    dict_get r k = PyVal.none
    ∧ evalTriple r (CmpOp.eq, k, v) = Except.ok (pyEq PyVal.none v)
    ∧ evalTriple r (CmpOp.ne, k, v) = Except.ok (!(pyEq PyVal.none v))
    ∧ evalTriple r (CmpOp.lt, k, v) = Except.error "TypeError"
    ∧ evalTriple r (CmpOp.le, k, v) = Except.error "TypeError"
    ∧ evalTriple r (CmpOp.ge, k, v) = Except.error "TypeError"
    ∧ evalTriple r (CmpOp.gt, k, v) = Except.error "TypeError" := by
  have hg : dict_get r k = PyVal.none := by
    simp [dict_get, h]
  refine ⟨hg, ?_, ?_, ?_, ?_, ?_, ?_⟩ <;>
    (simp only [evalTriple, applyOp, hg]; try (cases v <;> rfl))

/-- Concrete instance of the claim C4 amended theorem: an absent field
yields the sentinel, and `eq` against a text target evaluates to false
without raising. -/
theorem missing_field_sentinel_witness :
    dict_get [] "x" = PyVal.none
    ∧ evalTriple [] (CmpOp.eq, "x", PyVal.str "3") = Except.ok false :=
  have h := missing_field_sentinel [] "x" (PyVal.str "3") rfl
  ⟨h.1, h.2.1⟩

theorem sumGoalsAux_error (team : String) :
    ∀ (games : List Record) (res : Int),
      (∀ g ∈ games, team_goals g team = Except.error "ValueError"
        ∨ ∃ n, team_goals g team = Except.ok n) →
      (∃ g ∈ games, team_goals g team = Except.error "ValueError") →
      sumGoalsAux team res games = Except.error "ValueError" := by
  intro games
  induction games with
  | nil =>
    intro res hall hbad
    obtain ⟨g, hg, _⟩ := hbad
    simp at hg
  | cons g rest ih =>
    intro res hall hbad
    rcases hall g (List.mem_cons_self g rest) with herr | ⟨n, hok⟩
    · simp [sumGoalsAux, herr]
    · simp only [sumGoalsAux, hok]
      apply ih (res + n)
      · intro g2 hg2
        exact hall g2 (List.mem_cons_of_mem g hg2)
      · obtain ⟨g2, hg2, he2⟩ := hbad
        rcases List.mem_cons.mp hg2 with rfl | hmem
        · rw [hok] at he2
          exact absurd he2 (by simp)
        · exact ⟨g2, hmem, he2⟩

/-- Claim C5: when some record's score field selected by the Aggregator is
not a valid integer — `team_goals` raises `ValueError` on it — and no record
fails in any other way, `sum_goals` fails with that parsing error; the
error propagates to the caller and the result is never a coerced number. -/
theorem sum_goals_parse_error_propagates (games : List Record) (team : String)
    (hall : ∀ g ∈ games, team_goals g team = Except.error "ValueError"
      ∨ ∃ n, team_goals g team = Except.ok n)
    (hbad : ∃ g ∈ games, team_goals g team = Except.error "ValueError") :
    sum_goals games team = Except.error "ValueError" :=
  sumGoalsAux_error team games 0 hall hbad

/-- Concrete instance of the claim C5 theorem: a home score of `"x"` makes
the whole sum fail with `ValueError`. -/
theorem sum_goals_parse_error_witness :
    sum_goals [[("home_team", PyVal.str "A"), ("home_score", PyVal.str "x"),
      ("away_score", PyVal.str "1")]] "A" = Except.error "ValueError" :=
  sum_goals_parse_error_propagates
    [[("home_team", PyVal.str "A"), ("home_score", PyVal.str "x"),
      ("away_score", PyVal.str "1")]] "A"
    (by
      intro g hg
      rw [List.mem_singleton] at hg
      subst hg
      exact Or.inl rfl)
    ⟨[("home_team", PyVal.str "A"), ("home_score", PyVal.str "x"),
      ("away_score", PyVal.str "1")], List.mem_singleton.mpr rfl, rfl⟩

/-- Claim C8: parsing the data line `"Italy,France,2,1\n"` against the
header `"home_team,away_team,home_score,away_score\n"` yields exactly the
expected record, each line losing exactly its trailing character before
the split on commas. -/
theorem parse_line_roundtrip :
    row_splitter "Italy,France,2,1\n" = ["Italy", "France", "2", "1"]
    ∧ generate_games ["home_team,away_team,home_score,away_score\n", "Italy,France,2,1\n"]
      = Option.some [[("home_team", PyVal.str "Italy"), ("away_team", PyVal.str "France"),
          ("home_score", PyVal.str "2"), ("away_score", PyVal.str "1")]] :=
  ⟨rfl, rfl⟩

/-- Claim C9: over the two example records, `mode="or"` with
`home_team__eq="Italy"` and `away_team__eq="Italy"` selects both records,
and summing goals for Italy over that selection yields 2 + 3 = 5. -/
theorem select_or_sum_example :
    select
      [[("home_team", PyVal.str "Italy"), ("away_team", PyVal.str "France"),
        ("home_score", PyVal.str "2"), ("away_score", PyVal.str "1")],
       [("home_team", PyVal.str "France"), ("away_team", PyVal.str "Italy"),
        ("home_score", PyVal.str "0"), ("away_score", PyVal.str "3")]]
      [("mode", PyVal.str "or"), ("home_team__eq", PyVal.str "Italy"),
       ("away_team__eq", PyVal.str "Italy")]
      = Except.ok
        [[("home_team", PyVal.str "Italy"), ("away_team", PyVal.str "France"),
          ("home_score", PyVal.str "2"), ("away_score", PyVal.str "1")],
         [("home_team", PyVal.str "France"), ("away_team", PyVal.str "Italy"),
          ("home_score", PyVal.str "0"), ("away_score", PyVal.str "3")]]
    ∧ sum_goals
        [[("home_team", PyVal.str "Italy"), ("away_team", PyVal.str "France"),
          ("home_score", PyVal.str "2"), ("away_score", PyVal.str "1")],
         [("home_team", PyVal.str "France"), ("away_team", PyVal.str "Italy"),
          ("home_score", PyVal.str "0"), ("away_score", PyVal.str "3")]] "Italy"
      = Except.ok 5 :=
  ⟨rfl, rfl⟩

/-- Claim C10: whenever the record's `home_team` differs from the team
name, `team_goals` returns the parsed `away_score` — `away_team` is never
consulted — and consequently `sum_goals` adds the away score of a record in
which the named team does not appear at all. -/
theorem team_goals_defaults_to_away (game : Record) (team : String) (ht : PyVal)
    (hht : game.lookup "home_team" = Option.some ht)
    (hne : pyEq ht (PyVal.str team) = false) :
    team_goals game team = (dict_item game "away_score").bind pyInt
    ∧ ∀ n : Int, (dict_item game "away_score").bind pyInt = Except.ok n →
        sum_goals [game] team = Except.ok n := by
  have hh : dict_item game "home_team" = Except.ok ht := by
    simp [dict_item, hht]
  have h1 : team_goals game team = (dict_item game "away_score").bind pyInt := by
    simp only [team_goals, hh, hne]
    cases hdi : dict_item game "away_score" with
    | error e => simp [hdi, Except.bind]
    | ok v => simp [hdi, Except.bind]
  refine ⟨h1, fun n hn => ?_⟩
  have h2 : team_goals game team = Except.ok n := h1.trans hn
  simp [sum_goals, sumGoalsAux, h2]

/-- Concrete instance of the claim C10 theorem: Italy plays in neither
field of the record, yet its away score 4 is extracted and summed. -/
theorem team_goals_defaults_to_away_witness :
    team_goals [("home_team", PyVal.str "Spain"), ("away_team", PyVal.str "Brazil"),
      ("home_score", PyVal.str "7"), ("away_score", PyVal.str "4")] "Italy" = Except.ok 4
    ∧ sum_goals [[("home_team", PyVal.str "Spain"), ("away_team", PyVal.str "Brazil"),
        ("home_score", PyVal.str "7"), ("away_score", PyVal.str "4")]] "Italy"
      = Except.ok 4 :=
  have h := team_goals_defaults_to_away
    [("home_team", PyVal.str "Spain"), ("away_team", PyVal.str "Brazil"),
      ("home_score", PyVal.str "7"), ("away_score", PyVal.str "4")] "Italy"
    (PyVal.str "Spain") rfl rfl
  ⟨h.1.trans rfl, h.2 4 rfl⟩

end KaggleReader
